import Mathlib

/-!
Verification of the authoritative Scrabble session engine
(src/backend/src/Game.ts and src/backend/src/Room.ts).

The backend is a Socket.IO server mutating in-memory game state.  We embed
it shallowly: each handler becomes a pure function from the stored state
(plus the request data) to the state stored after the handler returns,
paired with the error message emitted to the caller, if any.  In the
source every error `socket.emit('error', ...); return` happens before any
mutation of the stored state, and every successful path runs to
completion, so this functional reading is exact.

Conventions:
- JS `(Tile | null)[][]` boards become `List (List (Option Tile))`;
  out-of-range reads (`undefined` in JS) are `none`.
- JS objects used as string-keyed records (`playerRacks`, `scores`,
  the `rooms` / `playerRooms` / `pendingRequests` / `disconnectedPlayers`
  maps) become association lists with JS object semantics (first
  occurrence wins, setting an absent key appends).
- `Date` timestamps become `Nat` milliseconds.
- The random shuffle (`shuffleArray`) is a parameter of the operations
  that use it, and the asynchronous dictionary lookup
  (`validateWordWithAPI`) is a parameter `oracle : String → Bool`.
- `room.host` in Room.ts is a JS reference aliasing an element of
  `room.players` (this holds at room creation and is preserved by host
  migration and reconnection, which always assign an element of the
  list); we model it by the index `hostIdx` of that element.
-/

namespace Scrabble

-- ## Basic data (Game.ts interfaces)

/-- Game.ts `Tile`: letter, point value, unique instance id. -/
structure Tile where
  letter : String
  value : Int
  id : String
deriving DecidableEq, Repr

/-- Game.ts `PlacedTile`: a tile proposed at a board position. -/
structure PlacedTile where
  row : Nat
  col : Nat
  tile : Tile
deriving DecidableEq, Repr

/-- Room.ts `Player`.  `lastSeen` is a millisecond timestamp. -/
structure Player where
  id : String
  username : String
  isHost : Bool
  socketId : String
  connected : Bool
  lastSeen : Nat
deriving DecidableEq, Repr

/-- Game.ts `WordFormed`: a word found on the board after placement. -/
structure WordFormed where
  word : String
  tiles : List Tile
  positions : List (Nat × Nat)
deriving DecidableEq, Repr

/-- Game.ts `WordPlayed`: history entry for a committed word. -/
structure WordPlayed where
  word : String
  player : String
  score : Int
  turn : Nat
deriving DecidableEq, Repr

-- ## String helpers (JS toLowerCase / toUpperCase / trim, char-wise)

/-- JS `toLowerCase` (char-wise; the usernames involved are ASCII). -/
def strLower (s : String) : String := String.mk (s.data.map Char.toLower)

/-- JS `toUpperCase` (char-wise; room codes are ASCII alphanumerics). -/
def strUpper (s : String) : String := String.mk (s.data.map Char.toUpper)

/-- JS `trim`: strip leading and trailing whitespace. -/
def strTrim (s : String) : String :=
  String.mk (((s.data.dropWhile Char.isWhitespace).reverse.dropWhile
    Char.isWhitespace).reverse)

-- ## List helpers (JS array / object primitives)

/-- JS object / Map lookup on an association list (keys unique in all
reachable states; first occurrence wins, as in JS). -/
def lookupA {α : Type} (k : String) : List (String × α) → Option α
  | [] => none
  | (k2, v) :: rest => if k2 = k then some v else lookupA k rest

/-- JS object property set / Map.set: replace the first binding of the
key, or append a new binding when the key is absent. -/
def setA {α : Type} (k : String) (v : α) : List (String × α) → List (String × α)
  | [] => [(k, v)]
  | (k2, v2) :: rest => if k2 = k then (k, v) :: rest else (k2, v2) :: setA k v rest

/-- JS Map.delete: remove the first binding of the key. -/
def delA {α : Type} (k : String) : List (String × α) → List (String × α)
  | [] => []
  | (k2, v) :: rest => if k2 = k then rest else (k2, v) :: delA k rest

/-- JS `array[i] = x` for an index already inside the array. -/
def setNth {α : Type} : List α → Nat → α → List α
  | [], _, _ => []
  | _ :: xs, 0, y => y :: xs
  | x :: xs, n + 1, y => x :: setNth xs n y

/-- JS `Array.prototype.findIndex`, as an `Option Nat`. -/
def findIdxP {α : Type} (p : α → Bool) : List α → Option Nat
  | [] => none
  | x :: xs => if p x then some 0 else (findIdxP p xs).map (· + 1)

-- ## Board (Game.ts)

def BOARD_SIZE : Nat := 15
def RACK_SIZE : Nat := 7

/-- The 15×15 board: `board[row][col]` is `null` (`none`) or a tile. -/
abbrev Board := List (List (Option Tile))

/-- JS `board[r][c]` read; out-of-range indices give `undefined`/`null`,
both modeled as `none`. -/
def boardGet (b : Board) (r c : Nat) : Option Tile :=
  ((b.get? r).bind (fun row => row.get? c)).join

/-- JS `board[r][c] = tile` for in-range `r`, `c` (the handlers only ever
write cells named by the client; rows outside the 15-row list would crash
JS, columns past the row length would grow it — both outside this model,
and all theorems about writes go through in-bounds positions). -/
def boardSet (b : Board) (r c : Nat) (t : Tile) : Board :=
  match b.get? r with
  | none => b
  | some row => setNth b r (setNth row c (some t))

/-- Game.ts submitMove commit loop / getWordsFormed temp board:
`placedTiles.forEach(({row, col, tile}) => { board[row][col] = tile })`. -/
def placeTiles (b : Board) (pts : List PlacedTile) : Board :=
  pts.foldl (fun acc pt => boardSet acc pt.row pt.col pt.tile) b

/-- The all-`null` 15×15 board built by `initializeGameState`. -/
def emptyBoard : Board := List.replicate 15 (List.replicate 15 (none : Option Tile))

-- ## Premium squares (Game.ts PREMIUM_SQUARES and getPremiumType)

inductive PremiumType where
  | DW | TW | DL | TL
deriving DecidableEq, Repr

def PREMIUM_DW : List (Nat × Nat) :=
  [(1,1),(2,2),(3,3),(4,4),(7,7),(10,10),(11,11),(12,12),(13,13)]

def PREMIUM_TW : List (Nat × Nat) :=
  [(0,0),(0,7),(0,14),(7,0),(7,14),(14,0),(14,7),(14,14)]

def PREMIUM_DL : List (Nat × Nat) :=
  [(0,3),(0,11),(2,6),(2,8),(3,0),(3,7),(3,14),(6,2),(6,6),(6,8),(6,12),
   (7,3),(7,11),(8,2),(8,6),(8,8),(8,12),(11,0),(11,7),(11,14),(12,6),
   (12,8),(14,3),(14,11)]

def PREMIUM_TL : List (Nat × Nat) :=
  [(1,5),(1,9),(5,1),(5,5),(5,9),(5,13),(9,1),(9,5),(9,9),(9,13),(13,5),(13,9)]

/-- Game.ts `getPremiumType`: first matching entry in the object's
insertion order DW, TW, DL, TL (the position sets are disjoint). -/
def getPremiumType (row col : Nat) : Option PremiumType :=
  if PREMIUM_DW.any (fun p => decide (p.1 = row ∧ p.2 = col)) then some .DW
  else if PREMIUM_TW.any (fun p => decide (p.1 = row ∧ p.2 = col)) then some .TW
  else if PREMIUM_DL.any (fun p => decide (p.1 = row ∧ p.2 = col)) then some .DL
  else if PREMIUM_TL.any (fun p => decide (p.1 = row ∧ p.2 = col)) then some .TL
  else none

-- ## Sorting placed tiles (Game.ts sort by row, then col)

/-- Comparator `(a, b) => a.row - b.row, then a.col - b.col` as strict
before-ness. -/
def ptLt (a b : PlacedTile) : Bool :=
  decide (a.row < b.row) || (decide (a.row = b.row) && decide (a.col < b.col))

def insertPT (x : PlacedTile) : List PlacedTile → List PlacedTile
  | [] => [x]
  | y :: ys => if ptLt x y then x :: y :: ys else y :: insertPT x ys

/-- Stable sort of the placed tiles by (row, col), matching the JS
`[...placedTiles].sort(comparator)` (JS sort is stable). -/
def sortPT (l : List PlacedTile) : List PlacedTile :=
  l.foldl (fun acc x => insertPT x acc) []

/-- `sortedTiles.every(tile => tile.row === sortedTiles[0].row)`. -/
def allSameRow : List PlacedTile → Bool
  | [] => true
  | h :: t => (h :: t).all (fun x => decide (x.row = h.row))

/-- `sortedTiles.every(tile => tile.col === sortedTiles[0].col)`. -/
def allSameCol : List PlacedTile → Bool
  | [] => true
  | h :: t => (h :: t).all (fun x => decide (x.col = h.col))

-- ## Placement validation (Game.ts isValidWordPlacement)

structure ValidationResult where
  valid : Bool
  reason : Option String
deriving DecidableEq, Repr

def vOk : ValidationResult := ⟨true, none⟩
def vFail (r : String) : ValidationResult := ⟨false, some r⟩

/-- The horizontal consecutive-tiles loop: for each adjacent pair of
sorted tiles, if the next tile sits more than one column further, the
code checks ONLY the single cell at `expectedCol = previous.col + 1`
(`board[current.row][expectedCol]`) — later cells of the gap are never
inspected. -/
def consecOkH (b : Board) : List PlacedTile → Bool
  | x :: y :: rest =>
      (if x.col + 1 < y.col then (boardGet b y.row (x.col + 1)).isSome else true)
        && consecOkH b (y :: rest)
  | _ => true

/-- The vertical consecutive-tiles loop: the single checked gap cell is
`board[expectedRow][current.col]` with `expectedRow = previous.row + 1`. -/
def consecOkV (b : Board) : List PlacedTile → Bool
  | x :: y :: rest =>
      (if x.row + 1 < y.row then (boardGet b (x.row + 1) y.col).isSome else true)
        && consecOkV b (y :: rest)
  | _ => true

/-- `placedTiles.some(tile => neighbors occupied)` connectivity test for
one placed tile; JS computes `row-1` etc. on numbers, so we test the four
neighbours over `Int` with the `0 ≤ · < 15` guards of the source. -/
def connectsAt (b : Board) (t : PlacedTile) : Bool :=
  let r : Int := t.row
  let c : Int := t.col
  [(r - 1, c), (r + 1, c), (r, c - 1), (r, c + 1)].any (fun p =>
    decide (0 ≤ p.1) && decide (p.1 < 15) && decide (0 ≤ p.2) && decide (p.2 < 15)
      && (boardGet b p.1.toNat p.2.toNat).isSome)

/-- Game.ts `isValidWordPlacement`.  When the placement is both
horizontal and vertical (a single tile), the source runs the horizontal
loop. -/
def isValidWordPlacement (b : Board) (placedTiles : List PlacedTile)
    (isFirstWord : Bool) : ValidationResult :=
  match sortPT placedTiles with
  | [] => vFail "No tiles placed"
  | h :: rest =>
    let sorted := h :: rest
    let isHorizontal := allSameRow sorted
    let isVertical := allSameCol sorted
    if !isHorizontal && !isVertical then vFail "Tiles must form a single word"
    else if isHorizontal && !consecOkH b sorted then vFail "Tiles must be consecutive"
    else if !isHorizontal && !consecOkV b sorted then vFail "Tiles must be consecutive"
    else if isFirstWord then
      if placedTiles.any (fun t => decide (t.row = 7) && decide (t.col = 7))
          || (boardGet b 7 7).isSome then vOk
      else vFail "First word must cover center square"
    else if placedTiles.any (fun t => connectsAt b t) then vOk
    else vFail "New tiles must connect to existing words"

-- ## Word extraction (Game.ts getWordsFormed)

/-- The `while (start > 0 && occupied (start - 1)) start--` extension
loops, by structural recursion on the start index. -/
def extendBack (occupied : Nat → Bool) : Nat → Nat
  | 0 => 0
  | n + 1 => if occupied n then extendBack occupied n else n + 1

/-- The `while (e < BOARD_SIZE - 1 && occupied (e + 1)) e++` extension
loops.  The index strictly increases and never passes `BOARD_SIZE - 1`,
so fuel `BOARD_SIZE` (passed at every call site) never cuts the loop
short. -/
def extendFwd (occupied : Nat → Bool) : Nat → Nat → Nat
  | 0, e => e
  | fuel + 1, e =>
      if decide (e < BOARD_SIZE - 1) && occupied (e + 1)
      then extendFwd occupied fuel (e + 1) else e

/-- `for (i = start; i <= stop; i++) if (cell i) word.push(cell i)`. -/
def collectRange (cell : Nat → Option Tile) (start stop : Nat) : List Tile :=
  (List.range (stop + 1 - start)).filterMap (fun i => cell (start + i))

/-- Build the `WordFormed` pushed for a horizontal run: the positions are
`{row, col: startCol + i}` for `i` ranging over the FILTERED tile list
(exactly as in the source, where a null cell inside the range shifts the
positions of all later tiles). -/
def mkWordFormedH (row startCol : Nat) (tiles : List Tile) : WordFormed :=
  { word := String.join (tiles.map (·.letter))
    tiles := tiles
    positions := (List.range tiles.length).map (fun i => (row, startCol + i)) }

/-- Build the `WordFormed` pushed for a vertical run. -/
def mkWordFormedV (col startRow : Nat) (tiles : List Tile) : WordFormed :=
  { word := String.join (tiles.map (·.letter))
    tiles := tiles
    positions := (List.range tiles.length).map (fun i => (startRow + i, col)) }

/-- Game.ts `getWordsFormed`: the main word (kept only when longer than
one tile) followed by the cross words (kept whenever the perpendicular
run extends beyond the placed cell), the latter scanned in the original
`placedTiles` order.  The empty-placement case indexes `sortedTiles[0]`
of an empty array in JS; `submitMove` rejects empty placements first, so
it is unreachable and modeled as `[]`. -/
def getWordsFormed (b : Board) (placedTiles : List PlacedTile) : List WordFormed :=
  let temp := placeTiles b placedTiles
  match sortPT placedTiles with
  | [] => []
  | h :: rest =>
    let sorted := h :: rest
    let isHorizontal := allSameRow sorted
    let mainWords :=
      if isHorizontal then
        let row := h.row
        let startCol := extendBack (fun c => (boardGet temp row c).isSome) h.col
        let endCol := extendFwd (fun c => (boardGet temp row c).isSome)
          BOARD_SIZE (sorted.getLastD h).col
        let tiles := collectRange (fun c => boardGet temp row c) startCol endCol
        if decide (tiles.length > 1) then [mkWordFormedH row startCol tiles] else []
      else
        let col := h.col
        let startRow := extendBack (fun r => (boardGet temp r col).isSome) h.row
        let endRow := extendFwd (fun r => (boardGet temp r col).isSome)
          BOARD_SIZE (sorted.getLastD h).row
        let tiles := collectRange (fun r => boardGet temp r col) startRow endRow
        if decide (tiles.length > 1) then [mkWordFormedV col startRow tiles] else []
    let crossWords := placedTiles.flatMap (fun pt =>
      if isHorizontal then
        let startRow := extendBack (fun r => (boardGet temp r pt.col).isSome) pt.row
        let endRow := extendFwd (fun r => (boardGet temp r pt.col).isSome)
          BOARD_SIZE pt.row
        if decide (startRow < endRow) then
          [mkWordFormedV pt.col startRow
            (collectRange (fun r => boardGet temp r pt.col) startRow endRow)]
        else []
      else
        let startCol := extendBack (fun c => (boardGet temp pt.row c).isSome) pt.col
        let endCol := extendFwd (fun c => (boardGet temp pt.row c).isSome)
          BOARD_SIZE pt.col
        if decide (startCol < endCol) then
          [mkWordFormedH pt.row startCol
            (collectRange (fun c => boardGet temp pt.row c) startCol endCol)]
        else [])
    mainWords ++ crossWords

-- ## Scoring (Game.ts calculateScore)

/-- `placedTiles.some(placed => placed.row === row && placed.col === col)`. -/
def isNewlyPlaced (placedTiles : List PlacedTile) (pos : Nat × Nat) : Bool :=
  placedTiles.any (fun p => decide (p.row = pos.1) && decide (p.col = pos.2))

/-- The inner `positions.forEach` of `calculateScore`, accumulating
`(wordScore, currentWordMultiplier)` exactly as the source's two mutable
variables.  The source pairs `positions[index]` with `tiles[index]`;
`zip` renders that (`getWordsFormed` always produces lists of equal
length, and a longer positions list would crash JS on
`undefined.value`). -/
def scoreStep (placedTiles : List PlacedTile) (acc : Int × Int)
    (pc : (Nat × Nat) × Tile) : Int × Int :=
  if isNewlyPlaced placedTiles pc.1 then
    match getPremiumType pc.1.1 pc.1.2 with
    | some .DL => (acc.1 + pc.2.value * 2, acc.2)
    | some .TL => (acc.1 + pc.2.value * 3, acc.2)
    | some .DW => (acc.1 + pc.2.value, acc.2 * 2)
    | some .TW => (acc.1 + pc.2.value, acc.2 * 3)
    | none => (acc.1 + pc.2.value, acc.2)
  else (acc.1 + pc.2.value, acc.2)

def scoreWordCode (placedTiles : List PlacedTile) (w : WordFormed) : Int × Int :=
  (w.positions.zip w.tiles).foldl (scoreStep placedTiles) (0, 1)

/-- Game.ts `calculateScore`: per-word score times word multiplier summed
over the words, plus the 50-point bonus when exactly 7 tiles were
placed. -/
def calculateScore (words : List WordFormed) (placedTiles : List PlacedTile) : Int :=
  let base := words.foldl (fun total w =>
    total + (scoreWordCode placedTiles w).1 * (scoreWordCode placedTiles w).2) 0
  if decide (placedTiles.length = 7) then base + 50 else base

-- ## Scoring, as §4.5 of the spec words it (for the refinement claim)

/-- Spec-side letter multiplier: double/triple letter premium applied
only to a tile newly placed in the current move. -/
def specLetterMultiplier (isNew : Bool) (pos : Nat × Nat) : Int :=
  if isNew then
    match getPremiumType pos.1 pos.2 with
    | some .DL => 2
    | some .TL => 3
    | _ => 1
  else 1

/-- Spec-side word multiplier triggered at one position: double/triple
word premium counted only under a newly placed tile. -/
def specWordMultiplier (isNew : Bool) (pos : Nat × Nat) : Int :=
  if isNew then
    match getPremiumType pos.1 pos.2 with
    | some .DW => 2
    | some .TW => 3
    | _ => 1
  else 1

/-- Spec-side score of one word: sum of tile values with letter
multipliers, multiplied by the product of the word multipliers. -/
def specWordScore (placedTiles : List PlacedTile) (w : WordFormed) : Int :=
  ((w.positions.zip w.tiles).map (fun pc =>
      pc.2.value * specLetterMultiplier (isNewlyPlaced placedTiles pc.1) pc.1)).sum
    * ((w.positions.zip w.tiles).map (fun pc =>
      specWordMultiplier (isNewlyPlaced placedTiles pc.1) pc.1)).prod

/-- Spec-side move score: sum over all formed words plus a flat 50-point
bonus exactly when the move placed 7 tiles. -/
def specMoveScore (words : List WordFormed) (placedTiles : List PlacedTile) : Int :=
  (words.map (specWordScore placedTiles)).sum
    + (if placedTiles.length = 7 then 50 else 0)

-- ## Tile draw and session state (Game.ts)

/-- Game.ts `drawTiles`: `tileBag.splice(0, Math.min(count, length))`
removes and returns the first tiles; result is (drawn, remaining bag). -/
def drawTiles (tileBag : List Tile) (count : Nat) : List Tile × List Tile :=
  (tileBag.take count, tileBag.drop count)

/-- Game.ts `GameState` (one per room; the room code is the map key and
is not part of the value). -/
structure GameState where
  board : Board
  tileBag : List Tile
  playerRacks : List (String × List Tile)
  scores : List (String × Int)
  currentTurn : Nat
  players : List Player
  passCount : Nat
  gameEnded : Bool
  wordsPlayed : List WordPlayed
  firstWordPlayed : Bool
deriving DecidableEq, Repr

/-- Game.ts `checkGameEnd`: bag empty with some empty rack, or pass count
reaching twice the LENGTH of the session's player list. -/
def checkGameEnd (gs : GameState) : Bool :=
  (decide (gs.tileBag.length = 0)
      && gs.playerRacks.any (fun pr => decide (pr.2.length = 0)))
    || decide (gs.players.length * 2 ≤ gs.passCount)

-- ## Socket handlers (Game.ts registerGameHandlers)

/-- A handler's outcome: the state stored in `gameStates` after the
handler returns, and the error message emitted to the caller, if any.
Every `socket.emit('error'); return` in the source precedes all state
mutation, and every successful path runs to completion, so the stored
state is unchanged exactly on the error outcomes. -/
abbrev HandlerResult := GameState × Option String

/-- Game.ts `submitMove` handler, for a room whose game state exists
(`gameStates.get` succeeded; otherwise only an error is emitted).
`oracle` stands for the asynchronous dictionary (`validateWords` rejects
at the first word the dictionary refuses).  The source never consults the
mover's rack: the client-supplied tiles are validated geometrically,
checked against the dictionary, written to the board (even over an
occupied cell) and scored, and the rack only ever GROWS by the drawn
replacement tiles — the placed tiles are not removed from it.  On game
end the source returns before advancing the turn; `finalizeScore` only
feeds the emitted payload and never mutates the stored state. -/
def submitMove (oracle : String → Bool) (gs : GameState) (sock : String)
    (placedTiles : List PlacedTile) : HandlerResult :=
  match gs.players.get? gs.currentTurn with
  | none => (gs, some "Game not found")
  | some currentPlayer =>
    if currentPlayer.socketId ≠ sock then (gs, some "Not your turn")
    else if placedTiles.length = 0 then (gs, some "No tiles placed")
    else
      let pv := isValidWordPlacement gs.board placedTiles (!gs.firstWordPlayed)
      if !pv.valid then (gs, pv.reason)
      else
        let wordsFormed := getWordsFormed gs.board placedTiles
        if wordsFormed.length = 0 then (gs, some "Must form at least one word")
        else
          match wordsFormed.find? (fun w => !oracle w.word) with
          | some w => (gs, some ("Invalid word: " ++ w.word))
          | none =>
            let moveScore := calculateScore wordsFormed placedTiles
            let board2 := placeTiles gs.board placedTiles
            let scores2 := setA currentPlayer.id
              ((lookupA currentPlayer.id gs.scores).getD 0 + moveScore) gs.scores
            let drawn := drawTiles gs.tileBag placedTiles.length
            let racks2 := setA currentPlayer.id
              ((lookupA currentPlayer.id gs.playerRacks).getD [] ++ drawn.1)
              gs.playerRacks
            let words2 := gs.wordsPlayed ++ wordsFormed.map (fun w =>
              { word := w.word
                player := currentPlayer.username
                score := moveScore
                turn := gs.currentTurn })
            let gs2 : GameState :=
              { gs with
                board := board2
                scores := scores2
                firstWordPlayed := true
                passCount := 0
                tileBag := drawn.2
                playerRacks := racks2
                wordsPlayed := words2 }
            if checkGameEnd gs2 then ({ gs2 with gameEnded := true }, none)
            else ({ gs2 with
              currentTurn := (gs.currentTurn + 1) % gs.players.length }, none)

/-- Game.ts `passTurn` handler (game state found). -/
def passTurn (gs : GameState) (sock : String) : HandlerResult :=
  match gs.players.get? gs.currentTurn with
  | none => (gs, some "Game not found")
  | some currentPlayer =>
    if currentPlayer.socketId ≠ sock then (gs, some "Not your turn")
    else
      let gs2 := { gs with passCount := gs.passCount + 1 }
      if checkGameEnd gs2 then ({ gs2 with gameEnded := true }, none)
      else ({ gs2 with
        currentTurn := (gs.currentTurn + 1) % gs.players.length }, none)

/-- Game.ts `exchangeTiles` handler (game state found).  `shuffle` stands
for the random `shuffleArray`; `tilesToExchange` is the list of
`rackIndex` values sent by the client.  The source maps each index to
`playerRack[rackIndex]`; an out-of-range index would push `undefined`
into the bag in JS, and such lookups are dropped here — every theorem
that inspects bag or rack contents supplies in-range indices. -/
def exchangeTiles (shuffle : List Tile → List Tile) (gs : GameState)
    (sock : String) (tilesToExchange : List Nat) : HandlerResult :=
  match gs.players.get? gs.currentTurn with
  | none => (gs, some "Game not found")
  | some currentPlayer =>
    if currentPlayer.socketId ≠ sock then (gs, some "Not your turn")
    else if gs.tileBag.length < tilesToExchange.length then
      (gs, some "Not enough tiles in bag")
    else
      let playerRack := (lookupA currentPlayer.id gs.playerRacks).getD []
      let newRack := (playerRack.enum.filter
        (fun it => !tilesToExchange.any (fun e => decide (e = it.1)))).map (·.2)
      let exchangedTiles := tilesToExchange.filterMap (fun i => playerRack.get? i)
      let bag2 := shuffle (gs.tileBag ++ exchangedTiles)
      let drawn := drawTiles bag2 tilesToExchange.length
      let racks2 := setA currentPlayer.id (newRack ++ drawn.1) gs.playerRacks
      ({ gs with
        tileBag := drawn.2
        playerRacks := racks2
        currentTurn := (gs.currentTurn + 1) % gs.players.length }, none)

/-- The payload of the `gameState` event emitted by the `getGameState`
handler: note the single-entry rack record `{ [currentPlayer.id]:
playerRacks[currentPlayer.id] }` (a `none` value models the JS
`undefined` of a missing record entry). -/
structure GameStateReply where
  board : Board
  scores : List (String × Int)
  currentTurn : Nat
  players : List Player
  playerRacks : List (String × Option (List Tile))
  gameEnded : Bool
  wordsPlayed : List WordPlayed
deriving DecidableEq, Repr

/-- Game.ts `getGameState` handler.  `inRoom` is the
`playerRooms.get(socket.id) === roomCode` membership test; on any failed
check only an error is emitted (`none` here). -/
def getGameState (gs : GameState) (sock : String) (inRoom : Bool) :
    Option GameStateReply :=
  if !inRoom then none
  else
    match gs.players.find? (fun p => decide (p.socketId = sock)) with
    | none => none
    | some currentPlayer =>
      some { board := gs.board
             scores := gs.scores
             currentTurn := gs.currentTurn
             players := gs.players
             playerRacks := [(currentPlayer.id, lookupA currentPlayer.id gs.playerRacks)]
             gameEnded := gs.gameEnded
             wordsPlayed := gs.wordsPlayed }

-- ## Tile-economy bookkeeping (for the conservation claim)

/-- Number of occupied board cells. -/
def occupiedCount (b : Board) : Nat :=
  (b.map (fun row => row.countP (fun c => c.isSome))).sum

/-- The conserved quantity of spec §8: `|bag| + Σ|racks| + |occupied
board cells|`. -/
def totalTiles (gs : GameState) : Nat :=
  gs.tileBag.length + (gs.playerRacks.map (fun pr => pr.2.length)).sum
    + occupiedCount gs.board

/-- Number of connected players in a list. -/
def connectedCount (l : List Player) : Nat := (l.filter (fun p => p.connected)).length

-- ## Rooms (Room.ts and the handlers of server.ts)

/-- Room.ts `Room`.  The JS `host` field is a reference aliasing an
element of `players` (true at creation and preserved by migration and
reconnection); `hostIdx` is that element's index.  `createdAt` is kept
for fidelity though no claim reads it. -/
structure Room where
  roomCode : String
  hostIdx : Nat
  players : List Player
  maxPlayers : Nat
  gameStarted : Bool
  createdAt : Nat
  emptyAt : Option Nat
deriving DecidableEq, Repr

/-- Room.ts `disconnectedPlayers` entry. -/
structure DiscInfo where
  player : Player
  roomCode : String
  disconnectedAt : Nat
deriving DecidableEq, Repr

/-- The module-level mutable maps of Room.ts / server.ts:
`rooms`, `playerRooms` (socketId → roomCode), `pendingRequests`
(socketId → pending player and room), and `disconnectedPlayers`
(lowercased username ++ ":" ++ roomCode → record). -/
structure World where
  rooms : List (String × Room)
  playerRooms : List (String × String)
  pendingRequests : List (String × (Player × String))
  disconnectedPlayers : List (String × DiscInfo)
deriving DecidableEq, Repr

/-- Room.ts `isUsernameAvailable`. -/
def isUsernameAvailable (w : World) (roomCode username : String)
    (excludeSocketId : Option String) : Bool :=
  match lookupA roomCode w.rooms with
  | none => true
  | some room =>
    !room.players.any (fun p =>
      decide (strLower p.username = strLower username)
        && !decide (some p.socketId = excludeSocketId))

/-- The room update performed by Room.ts `handlePlayerDisconnection`
(lines 75–101) once the room and the player's index are known: mark the
player disconnected, then either stamp `emptyAt` (no one left connected),
or — when the departing socket is the host reference's — reassign the
host to the first still-connected player in join order and set that
player's `isHost` flag.  The departing player's own `isHost` flag is
never cleared.  Returns the updated room and the (already disconnected)
snapshot of the player, or `none` when the socket is not in the room. -/
def disconnectRoomUpdate (room : Room) (socketId : String) (now : Nat) :
    Option (Room × Player) :=
  match findIdxP (fun p => decide (p.socketId = socketId)) room.players with
  | none => none
  | some idx =>
    match room.players.get? idx with
    | none => none
    | some player =>
      let player2 := { player with connected := false, lastSeen := now }
      let players2 := setNth room.players idx player2
      let room2 :=
        if (players2.filter (fun p => p.connected)).length = 0 then
          { room with players := players2, emptyAt := some now }
        else if (room.players.get? room.hostIdx).map (fun p => p.socketId)
            = some socketId then
          match findIdxP (fun p => p.connected) players2 with
          | some nh =>
            match players2.get? nh with
            | some newHost =>
              { room with
                players := setNth players2 nh { newHost with isHost := true }
                hostIdx := nh }
            | none => { room with players := players2 }
          | none => { room with players := players2 }
        else { room with players := players2 }
      some (room2, player2)

/-- Room.ts `handlePlayerDisconnection`: resolve the socket's room, apply
`disconnectRoomUpdate`, free the transport mapping and record the
disconnection in the ledger. -/
def handlePlayerDisconnection (w : World) (socketId : String) (now : Nat) : World :=
  match lookupA socketId w.playerRooms with
  | none => w
  | some roomCode =>
    match lookupA roomCode w.rooms with
    | none => w
    | some room =>
      match disconnectRoomUpdate room socketId now with
      | none => w
      | some (room2, player2) =>
        { w with
          rooms := setA roomCode room2 w.rooms
          playerRooms := delA socketId w.playerRooms
          disconnectedPlayers := setA (strLower player2.username ++ ":" ++ roomCode)
            ⟨player2, roomCode, now⟩ w.disconnectedPlayers }

/-- server.ts `disconnect` handler: drop any pending join request of the
socket, then run `handlePlayerDisconnection`. -/
def disconnectEvent (w : World) (socketId : String) (now : Nat) : World :=
  handlePlayerDisconnection
    { w with pendingRequests := delA socketId w.pendingRequests } socketId now

/-- Room.ts `handleReconnection`: within 5 minutes of the recorded
disconnection, reattach the new socket to the matching disconnected
player, restore `connected`, and clear the `emptyAt` marker.  Returns
whether the reconnection succeeded. -/
def handleReconnection (w : World) (socketId username roomCode : String)
    (now : Nat) : Bool × World :=
  let key := strLower username ++ ":" ++ roomCode
  match lookupA key w.disconnectedPlayers with
  | none => (false, w)
  | some info =>
    match lookupA roomCode w.rooms with
    | none => (false, { w with disconnectedPlayers := delA key w.disconnectedPlayers })
    | some room =>
      if 5 * 60 * 1000 < now - info.disconnectedAt then
        (false, { w with disconnectedPlayers := delA key w.disconnectedPlayers })
      else
        match findIdxP (fun p =>
            decide (strLower p.username = strLower username) && !p.connected)
            room.players with
        | none => (false, w)
        | some idx =>
          match room.players.get? idx with
          | none => (false, w)
          | some player =>
            let player2 :=
              { player with socketId := socketId, connected := true, lastSeen := now }
            let room2 :=
              { room with players := setNth room.players idx player2, emptyAt := none }
            (true,
              { w with
                rooms := setA roomCode room2 w.rooms
                playerRooms := setA socketId roomCode w.playerRooms
                disconnectedPlayers := delA key w.disconnectedPlayers })

/-- server.ts `createRoom` handler.  `roomCode` stands for the value
produced by the random, collision-free `generateRoomCode`. -/
def createRoom (w : World) (socketId username roomCode : String) (now : Nat) : World :=
  if strTrim username = "" then w
  else if 20 < username.length then w
  else
    let host : Player :=
      { id := socketId, username := strTrim username, isHost := true,
        socketId := socketId, connected := true, lastSeen := now }
    { w with
      rooms := setA roomCode
        { roomCode := roomCode, hostIdx := 0, players := [host], maxPlayers := 4,
          gameStarted := false, createdAt := now, emptyAt := none } w.rooms
      playerRooms := setA socketId roomCode w.playerRooms }

/-- server.ts `joinRoom` handler, state effects only.  A successful
reconnection additionally restores the host reference to the reconnected
player when that player's `isHost` flag is still set (the flag the
migration never cleared); otherwise a fresh join request is parked
pending host approval. -/
def joinRoom (w : World) (socketId username roomCode : String) (now : Nat) : World :=
  if username = "" || roomCode = "" then w
  else if 20 < username.length then w
  else
    let code := strUpper roomCode
    match lookupA code w.rooms with
    | none => w
    | some _ =>
      let rec2 := handleReconnection w socketId username code now
      if rec2.1 then
        match lookupA code rec2.2.rooms with
        | none => rec2.2
        | some room =>
          match findIdxP (fun p =>
              decide (strLower p.username = strLower username) && p.connected)
              room.players with
          | none => rec2.2
          | some idx =>
            match room.players.get? idx with
            | none => rec2.2
            | some rp =>
              if rp.isHost then
                { rec2.2 with rooms := setA code { room with hostIdx := idx } rec2.2.rooms }
              else rec2.2
      else
        match lookupA code rec2.2.rooms with
        | none => rec2.2
        | some room =>
          if room.gameStarted then rec2.2
          else if room.maxPlayers ≤ connectedCount room.players then rec2.2
          else if !isUsernameAvailable rec2.2 code username none then rec2.2
          else
            let player : Player :=
              { id := socketId, username := strTrim username, isHost := false,
                socketId := socketId, connected := true, lastSeen := now }
            { rec2.2 with
              pendingRequests := setA socketId (player, code) rec2.2.pendingRequests }

/-- server.ts `approvePlayer` handler: the caller must be the host
reference's socket or a connected flagged host; the pending player is
appended to the room's player list. -/
def approvePlayer (w : World) (hostSocketId targetSocketId : String) : World :=
  match lookupA hostSocketId w.playerRooms with
  | none => w
  | some roomCode =>
    match lookupA roomCode w.rooms with
    | none => w
    | some room =>
      let hostOk :=
        decide ((room.players.get? room.hostIdx).map (fun p => p.socketId)
            = some hostSocketId)
          || room.players.any (fun p =>
            decide (p.socketId = hostSocketId) && p.isHost && p.connected)
      if !hostOk then w
      else
        match lookupA targetSocketId w.pendingRequests with
        | none => w
        | some req =>
          if !isUsernameAvailable w roomCode req.1.username none then
            { w with pendingRequests := delA targetSocketId w.pendingRequests }
          else
            { w with
              rooms := setA roomCode
                { room with players := room.players ++ [req.1] } w.rooms
              playerRooms := setA targetSocketId roomCode w.playerRooms
              pendingRequests := delA targetSocketId w.pendingRequests }

/-- The connected players whose `isHost` flag is set — the spec's
"exactly one host per room among connected players" counts these. -/
def connectedFlaggedHosts (room : Room) : List Player :=
  room.players.filter (fun p => p.connected && p.isHost)

-- ## Concrete fixtures used by witnesses and counterexamples

def mkT (letter : String) (value : Int) (id : String) : Tile :=
  { letter := letter, value := value, id := id }

def mkP (id username : String) (isHost : Bool) (socketId : String)
    (connected : Bool) : Player :=
  { id := id, username := username, isHost := isHost, socketId := socketId,
    connected := connected, lastSeen := 0 }

/-- A 7-tile rack with distinct ids built from a prefix letter list. -/
def rack7 (tag : String) : List Tile :=
  (List.range 7).map (fun i => mkT "E" 1 (tag ++ toString i))

/-- The dictionary oracle that accepts every word (the fixtures only need
the accepting branch; in the source this corresponds to every lookup
succeeding). -/
def oracleYes : String → Bool := fun _ => true

/-- Two connected players used by several fixtures. -/
def playerA : Player := mkP "idA" "alice" true "sA" true
def playerB : Player := mkP "idB" "bob" false "sB" true

/-- A started 2-player session right after dealing: empty board, both
racks full, 5 tiles left in the bag, no word played yet. -/
def gsStart : GameState :=
  { board := emptyBoard
    tileBag := (List.range 5).map (fun i => mkT "A" 1 ("bag" ++ toString i))
    playerRacks := [("idA", rack7 "ra"), ("idB", rack7 "rb")]
    scores := [("idA", 0), ("idB", 0)]
    currentTurn := 0
    players := [playerA, playerB]
    passCount := 0
    gameEnded := false
    wordsPlayed := []
    firstWordPlayed := false }

/-- Player A's opening placement: I and T on the centre row. -/
def ptsIT : List PlacedTile :=
  [⟨7, 7, mkT "I" 1 "pI"⟩, ⟨7, 8, mkT "T" 1 "pT"⟩]

/-- Session with (7,7) already occupied by a committed tile, used to show
a later move may overwrite it. -/
def tileOld : Tile := mkT "X" 8 "old"
def tileNew : Tile := mkT "Y" 4 "new"

def gsMid : GameState :=
  { gsStart with
    board := boardSet emptyBoard 7 7 tileOld
    firstWordPlayed := true }

/-- A placement that names the already-occupied centre cell. -/
def ptsOverwrite : List PlacedTile :=
  [⟨7, 7, tileNew⟩, ⟨7, 8, mkT "Z" 10 "new2"⟩]

/-- Board with a single committed tile at (7,1), used for the gap-check
counterexample. -/
def bGap : Board := boardSet emptyBoard 7 1 tileOld

/-- Tiles at (7,0) and (7,3): the gap spans columns 1 and 2, only column
1 is occupied, column 2 is empty. -/
def ptsGap : List PlacedTile :=
  [⟨7, 0, mkT "C" 3 "g0"⟩, ⟨7, 3, mkT "T" 1 "g3"⟩]

/-- A third player who has disconnected mid-game. -/
def playerC : Player := mkP "idC" "carol" false "sC" false

/-- In-progress 3-player session where carol is disconnected (2 players
connected) and 3 passes have accumulated. -/
def gsPass : GameState :=
  { gsStart with
    players := [playerA, playerB, playerC]
    playerRacks := [("idA", rack7 "ra"), ("idB", rack7 "rb"), ("idC", rack7 "rc")]
    scores := [("idA", 0), ("idB", 0), ("idC", 0)]
    firstWordPlayed := true
    passCount := 3 }

/-- Same session with everyone connected and 5 passes accumulated: the
6th pass ends the game. -/
def gsPass5 : GameState :=
  { gsPass with
    players := [playerA, playerB, { playerC with connected := true }]
    passCount := 5 }

/-- Session whose bag holds only 3 tiles, for the exchange-rejection
scenario of spec §8. -/
def gsBag3 : GameState :=
  { gsStart with
    tileBag := [mkT "A" 1 "b0", mkT "B" 3 "b1", mkT "C" 3 "b2"]
    firstWordPlayed := true }

/-- Two sessions identical except for player B's rack contents. -/
def gsRacksA : GameState := gsStart
def gsRacksB : GameState :=
  { gsStart with playerRacks := [("idA", rack7 "ra"), ("idB", [mkT "Q" 10 "q"])] }

-- Reachable-world trace for the host-migration claim: alice creates the
-- room, bob joins and is approved, alice (the host) disconnects — bob
-- becomes host — and alice reconnects inside the 5-minute window.

def w0 : World :=
  { rooms := [], playerRooms := [], pendingRequests := [], disconnectedPlayers := [] }
def w1 : World := createRoom w0 "s1" "alice" "ROOM01" 0
def w2 : World := joinRoom w1 "s2" "bob" "ROOM01" 10
def w3 : World := approvePlayer w2 "s1" "s2"
def w4 : World := disconnectEvent w3 "s1" 1000
def w5 : World := joinRoom w4 "s1b" "alice" "ROOM01" 2000

/-- A 2-player room (alice host, both connected) used to witness the
host-migration theorem, with its expected disconnect result. -/
def hostW : Player := mkP "idA" "alice" true "s1" true

def roomW : Room :=
  { roomCode := "R", hostIdx := 0,
    players := [hostW, mkP "idB" "bob" false "s2" true],
    maxPlayers := 4, gameStarted := false, createdAt := 0, emptyAt := none }

/-- The room after alice's disconnection: alice marked disconnected (flag
NOT cleared), bob promoted to host. -/
def roomW2 : Room :=
  { roomCode := "R", hostIdx := 1,
    players := [{ hostW with connected := false, lastSeen := 5 },
                { mkP "idB" "bob" false "s2" true with isHost := true }],
    maxPlayers := 4, gameStarted := false, createdAt := 0, emptyAt := none }

/-- The disconnected snapshot of alice returned alongside. -/
def plW2 : Player := { hostW with connected := false, lastSeen := 5 }

-- ## Helper lemmas about the list primitives

theorem lookupA_setA_self {α : Type} (k : String) (v : α) (l : List (String × α)) :
    lookupA k (setA k v l) = some v := by
  induction l with
  | nil => simp [setA, lookupA]
  | cons hd tl ih =>
    obtain ⟨k2, v2⟩ := hd
    by_cases hk : k2 = k
    · simp [setA, hk, lookupA]
    · simp [setA, hk, lookupA, ih]

theorem lookupA_setA_ne {α : Type} (k k2 : String) (v : α) (l : List (String × α))
    (h : k2 ≠ k) : lookupA k2 (setA k v l) = lookupA k2 l := by
  induction l with
  | nil => simp [setA, lookupA, Ne.symm h]
  | cons hd tl ih =>
    obtain ⟨k3, v3⟩ := hd
    by_cases hk : k3 = k
    · subst hk
      simp [setA, lookupA, Ne.symm h]
    · simp [setA, hk, lookupA, ih]

theorem length_setNth {α : Type} (l : List α) (i : Nat) (x : α) :
    (setNth l i x).length = l.length := by
  induction l generalizing i with
  | nil => simp [setNth]
  | cons hd tl ih =>
    cases i with
    | zero => simp [setNth]
    | succ n => simp [setNth, ih]

theorem get?_some_lt {α : Type} {l : List α} {i : Nat} {x : α}
    (h : l.get? i = some x) : i < l.length :=
  (List.get?_eq_some.mp h).fst

theorem get?_setNth_self {α : Type} (l : List α) (i : Nat) (x : α)
    (h : i < l.length) : (setNth l i x).get? i = some x := by
  induction l generalizing i with
  | nil => simp at h
  | cons hd tl ih =>
    cases i with
    | zero => simp [setNth]
    | succ n => simpa [setNth] using ih n (by simpa using h)

theorem get?_setNth_ne {α : Type} (l : List α) (i j : Nat) (x : α)
    (h : i ≠ j) : (setNth l i x).get? j = l.get? j := by
  induction l generalizing i j with
  | nil => simp [setNth]
  | cons hd tl ih =>
    cases i with
    | zero =>
      cases j with
      | zero => exact absurd rfl h
      | succ m => simp [setNth]
    | succ n =>
      cases j with
      | zero => simp [setNth]
      | succ m => simpa [setNth] using ih n m (by omega)

theorem findIdxP_some_get {α : Type} {p : α → Bool} {l : List α} {i : Nat}
    (h : findIdxP p l = some i) : ∃ x, l.get? i = some x ∧ p x = true := by
  induction l generalizing i with
  | nil => simp [findIdxP] at h
  | cons hd tl ih =>
    by_cases hp : p hd
    · simp [findIdxP, hp] at h
      subst h
      exact ⟨hd, rfl, hp⟩
    · simp [findIdxP, hp] at h
      obtain ⟨j, hj, rfl⟩ := h
      obtain ⟨x, hx, hpx⟩ := ih hj
      exact ⟨x, by simpa using hx, hpx⟩

theorem findIdxP_some_lt {α : Type} {p : α → Bool} {l : List α} {i : Nat}
    (h : findIdxP p l = some i) : i < l.length := by
  obtain ⟨x, hx, _⟩ := findIdxP_some_get h
  exact get?_some_lt hx

theorem findIdxP_some_before {α : Type} {p : α → Bool} {l : List α} {i : Nat}
    (h : findIdxP p l = some i) :
    ∀ j x, j < i → l.get? j = some x → p x = false := by
  induction l generalizing i with
  | nil => simp [findIdxP] at h
  | cons hd tl ih =>
    by_cases hp : p hd
    · simp [findIdxP, hp] at h
      subst h
      intro j x hj
      omega
    · simp [findIdxP, hp] at h
      obtain ⟨k, hk, rfl⟩ := h
      intro j x hj hx
      cases j with
      | zero =>
        simp at hx
        subst hx
        simpa using hp
      | succ m =>
        exact ih hk m x (by omega) (by simpa using hx)

theorem findIdxP_setNth_self {α : Type} {p : α → Bool} {l : List α} {i : Nat}
    (x : α) (h : findIdxP p l = some i) (hx : p x = true) :
    findIdxP p (setNth l i x) = some i := by
  induction l generalizing i with
  | nil => simp [findIdxP] at h
  | cons hd tl ih =>
    by_cases hp : p hd
    · simp [findIdxP, hp] at h
      subst h
      simp [setNth, findIdxP, hx]
    · simp [findIdxP, hp] at h
      obtain ⟨k, hk, rfl⟩ := h
      simp [setNth, findIdxP, hp, ih hk]

theorem findIdxP_none_filter {α : Type} {p : α → Bool} {l : List α}
    (h : findIdxP p l = none) : l.filter p = [] := by
  induction l with
  | nil => simp
  | cons hd tl ih =>
    by_cases hp : p hd
    · simp [findIdxP, hp] at h
    · simp [findIdxP, hp] at h
      simp [List.filter_cons, hp, ih h]

theorem get?_mem_mine {α : Type} {l : List α} {i : Nat} {x : α}
    (h : l.get? i = some x) : x ∈ l := List.get?_mem h

theorem nodup_map_get?_inj {α β : Type} (f : α → β) {l : List α}
    (h : (l.map f).Nodup) {i j : Nat} {x y : α} (hi : l.get? i = some x)
    (hj : l.get? j = some y) (hf : f x = f y) : i = j := by
  induction l generalizing i j with
  | nil => simp [List.get?] at hi
  | cons hd tl ih =>
    rw [List.map_cons] at h
    have h2 := List.nodup_cons.mp h
    cases i with
    | zero =>
      cases j with
      | zero => rfl
      | succ m =>
        have hx : hd = x := by simpa [List.get?] using hi
        have hjm : tl.get? m = some y := hj
        have hmem : f y ∈ tl.map f := List.mem_map_of_mem f (get?_mem_mine hjm)
        rw [← hf, ← hx] at hmem
        exact absurd hmem h2.1
    | succ n =>
      cases j with
      | zero =>
        have hy : hd = y := by simpa [List.get?] using hj
        have hin : tl.get? n = some x := hi
        have hmem : f x ∈ tl.map f := List.mem_map_of_mem f (get?_mem_mine hin)
        rw [hf, ← hy] at hmem
        exact absurd hmem h2.1
      | succ m =>
        exact congrArg Nat.succ (ih h2.2 hi hj)

theorem filter_length_setNth {α : Type} (p : α → Bool) (l : List α) (i : Nat)
    (x y : α) (h : l.get? i = some y) :
    ((setNth l i x).filter p).length + (if p y then 1 else 0)
      = (l.filter p).length + (if p x then 1 else 0) := by
  induction l generalizing i with
  | nil => simp [List.get?] at h
  | cons hd tl ih =>
    cases i with
    | zero =>
      have h0 : hd = y := by simpa [List.get?] using h
      subst h0
      by_cases hx : p x <;> by_cases hh : p hd <;>
        simp [setNth, List.filter_cons, hx, hh]
    | succ n =>
      have hn : tl.get? n = some y := h
      have := ih n hn
      by_cases hd2 : p hd <;>
        simp [setNth, List.filter_cons, hd2] <;> omega

theorem filter_length_setNth_tf {α : Type} (p : α → Bool) (l : List α)
    (i : Nat) (x y : α) (h : l.get? i = some y) (hy : p y = true)
    (hx : p x = false) :
    ((setNth l i x).filter p).length + 1 = (l.filter p).length := by
  have h2 := filter_length_setNth p l i x y h
  simpa [hy, hx] using h2

theorem filter_length_setNth_ft {α : Type} (p : α → Bool) (l : List α)
    (i : Nat) (x y : α) (h : l.get? i = some y) (hy : p y = false)
    (hx : p x = true) :
    ((setNth l i x).filter p).length = (l.filter p).length + 1 := by
  have h2 := filter_length_setNth p l i x y h
  simpa [hy, hx] using h2

theorem filter_length_setNth_ff {α : Type} (p : α → Bool) (l : List α)
    (i : Nat) (x y : α) (h : l.get? i = some y) (hy : p y = false)
    (hx : p x = false) :
    ((setNth l i x).filter p).length = (l.filter p).length := by
  have h2 := filter_length_setNth p l i x y h
  simpa [hy, hx] using h2

theorem filter_pos_of_get? {α : Type} (p : α → Bool) (l : List α) {i : Nat}
    {y : α} (h : l.get? i = some y) (hp : p y = true) :
    0 < (l.filter p).length := by
  have hm : y ∈ l.filter p := List.mem_filter.mpr ⟨get?_mem_mine h, hp⟩
  exact List.length_pos.mpr (fun he => by simp [he] at hm)

theorem filter_two_of_get? {α : Type} (p : α → Bool) (l : List α) {i j : Nat}
    {x y : α} (hij : i ≠ j) (hi : l.get? i = some x) (hj : l.get? j = some y)
    (hx : p x = true) (hy : p y = true) : 2 ≤ (l.filter p).length := by
  induction l generalizing i j with
  | nil => simp [List.get?] at hi
  | cons hd tl ih =>
    cases i with
    | zero =>
      cases j with
      | zero => exact absurd rfl hij
      | succ m =>
        have h0 : hd = x := by simpa [List.get?] using hi
        subst h0
        have hjm : tl.get? m = some y := hj
        have h1 : 0 < (tl.filter p).length := filter_pos_of_get? p tl hjm hy
        simp [List.filter_cons, hx]
        omega
    | succ n =>
      cases j with
      | zero =>
        have h0 : hd = y := by simpa [List.get?] using hj
        subst h0
        have hin : tl.get? n = some x := hi
        have h1 : 0 < (tl.filter p).length := filter_pos_of_get? p tl hin hx
        simp [List.filter_cons, hy]
        omega
      | succ m =>
        have hin : tl.get? n = some x := hi
        have hjm : tl.get? m = some y := hj
        have := ih (by omega : n ≠ m) hin hjm
        by_cases hd2 : p hd <;> simp [List.filter_cons, hd2] <;> omega

-- ## Helper lemmas about the board and the validator

theorem setNth_oob {α : Type} (l : List α) (i : Nat) (x : α)
    (h : l.length ≤ i) : setNth l i x = l := by
  induction l generalizing i with
  | nil => simp [setNth]
  | cons hd tl ih =>
    cases i with
    | zero => simp at h
    | succ n =>
      simp at h
      simp [setNth]
      exact ih n h

theorem boardGet_boardSet_isSome (b : Board) (r c : Nat) (t : Tile)
    {r2 c2 : Nat} (h : (boardGet b r2 c2).isSome = true) :
    (boardGet (boardSet b r c t) r2 c2).isSome = true := by
  unfold boardSet
  split
  · exact h
  · rename_i row hrow
    by_cases hr : r = r2
    · subst hr
      have hlt : r < b.length := get?_some_lt hrow
      unfold boardGet
      rw [get?_setNth_self b r _ hlt]
      show ((setNth row c (some t)).get? c2).join.isSome = true
      unfold boardGet at h
      rw [hrow] at h
      have h2 : (row.get? c2).join.isSome = true := h
      by_cases hc : c = c2
      · subst hc
        by_cases hcl : c < row.length
        · rw [get?_setNth_self row c _ hcl]
          rfl
        · rw [setNth_oob row c _ (by omega)]
          exact h2
      · rw [get?_setNth_ne row c c2 _ hc]
        exact h2
    · unfold boardGet
      rw [get?_setNth_ne b r r2 _ hr]
      exact h

theorem boardGet_placeTiles_isSome (b : Board) (pts : List PlacedTile)
    {r c : Nat} (h : (boardGet b r c).isSome = true) :
    (boardGet (placeTiles b pts) r c).isSome = true := by
  induction pts generalizing b with
  | nil => exact h
  | cons hd tl ih =>
    exact ih (boardSet b hd.row hd.col hd.tile)
      (boardGet_boardSet_isSome b hd.row hd.col hd.tile h)

theorem consecOkH_chain (b : Board) (l : List PlacedTile)
    (h : consecOkH b l = true) :
    l.Chain' (fun x y => y.col ≤ x.col + 1
      ∨ (boardGet b y.row (x.col + 1)).isSome = true) := by
  induction l with
  | nil => simp
  | cons x tl ih =>
    cases tl with
    | nil => simp
    | cons y rest =>
      rw [consecOkH, Bool.and_eq_true] at h
      rw [List.chain'_cons]
      refine ⟨?_, ih h.2⟩
      by_cases hlt : x.col + 1 < y.col
      · right
        simpa [hlt] using h.1
      · left
        omega

theorem consecOkV_chain (b : Board) (l : List PlacedTile)
    (h : consecOkV b l = true) :
    l.Chain' (fun x y => y.row ≤ x.row + 1
      ∨ (boardGet b (x.row + 1) y.col).isSome = true) := by
  induction l with
  | nil => simp
  | cons x tl ih =>
    cases tl with
    | nil => simp
    | cons y rest =>
      rw [consecOkV, Bool.and_eq_true] at h
      rw [List.chain'_cons]
      refine ⟨?_, ih h.2⟩
      by_cases hlt : x.row + 1 < y.row
      · right
        simpa [hlt] using h.1
      · left
        omega

theorem isValidWordPlacement_cases (b : Board) (pts : List PlacedTile)
    (f : Bool) :
    isValidWordPlacement b pts f = vOk
      ∨ (isValidWordPlacement b pts f).reason.isSome = true := by
  unfold isValidWordPlacement
  repeat' (first | split | (dsimp only; split))
  all_goals simp [vFail, vOk]

theorem isValidWordPlacement_invalid_reason (b : Board) (pts : List PlacedTile)
    (f : Bool) (hval : (isValidWordPlacement b pts f).valid = false) :
    (isValidWordPlacement b pts f).reason.isSome = true := by
  rcases isValidWordPlacement_cases b pts f with hc | hc
  · rw [hc] at hval
    simp [vOk] at hval
  · exact hc

-- ## Helper lemmas about the scoring folds

theorem scoreStep_eq (placedTiles : List PlacedTile) (acc : Int × Int)
    (pc : (Nat × Nat) × Tile) :
    scoreStep placedTiles acc pc
      = (acc.1 + pc.2.value
            * specLetterMultiplier (isNewlyPlaced placedTiles pc.1) pc.1,
         acc.2 * specWordMultiplier (isNewlyPlaced placedTiles pc.1) pc.1) := by
  unfold scoreStep specLetterMultiplier specWordMultiplier
  by_cases hn : isNewlyPlaced placedTiles pc.1
  · simp only [hn, if_true]
    cases hp : getPremiumType pc.1.1 pc.1.2 with
    | none => simp
    | some pt => cases pt <;> simp
  · simp [hn]

theorem foldl_scoreStep (placedTiles : List PlacedTile)
    (l : List ((Nat × Nat) × Tile)) (acc : Int × Int) :
    l.foldl (scoreStep placedTiles) acc
      = (acc.1 + (l.map (fun pc => pc.2.value
            * specLetterMultiplier (isNewlyPlaced placedTiles pc.1) pc.1)).sum,
         acc.2 * (l.map (fun pc =>
            specWordMultiplier (isNewlyPlaced placedTiles pc.1) pc.1)).prod) := by
  induction l generalizing acc with
  | nil => simp
  | cons hd tl ih =>
    rw [List.foldl_cons, ih, scoreStep_eq]
    apply Prod.ext <;> simp <;> ring

theorem scoreWordCode_eq_spec (placedTiles : List PlacedTile) (w : WordFormed) :
    (scoreWordCode placedTiles w).1 * (scoreWordCode placedTiles w).2
      = specWordScore placedTiles w := by
  unfold scoreWordCode specWordScore
  rw [foldl_scoreStep]
  simp

theorem foldl_add_scores (placedTiles : List PlacedTile) (l : List WordFormed)
    (s : Int) :
    l.foldl (fun total w => total
        + (scoreWordCode placedTiles w).1 * (scoreWordCode placedTiles w).2) s
      = s + (l.map (fun w => specWordScore placedTiles w)).sum := by
  induction l generalizing s with
  | nil => simp
  | cons hd tl ih =>
    rw [List.foldl_cons, ih, scoreWordCode_eq_spec]
    simp
    ring

-- ## Claim C1 (tile conservation)

/-- C1: REFUTED — the committed `submitMove` does not remove the placed
tiles from the mover's rack (Game.ts only appends the drawn replacement
tiles, lines 627–633), so `|bag| + Σ|racks| + |occupied cells|` GROWS by
the number of placed tiles.  Concretely: in the freshly dealt 2-player
session `gsStart` (bag 5, racks 7+7, board empty: total 19), alice's
committed 2-tile opening move leaves total 21, and her rack has 9 tiles,
exceeding `RACK_SIZE`. -/
theorem submitMove_breaks_tile_conservation :
    (submitMove oracleYes gsStart "sA" ptsIT).2 = none
    ∧ totalTiles gsStart = 19
    ∧ totalTiles (submitMove oracleYes gsStart "sA" ptsIT).1 = 21
    ∧ (lookupA "idA" (submitMove oracleYes gsStart "sA" ptsIT).1.playerRacks).map
        List.length = some 9 := by decide

-- ## Claim C2 (board permanence)

/-- C2 counterexample: a committed `submitMove` whose `placedTileSet`
names the already-occupied cell (7,7) REPLACES that cell's tile — nothing
in `isValidWordPlacement` or the commit loop checks cell occupancy.  The
claim's "occupied by the same tile after" is false. -/
theorem submitMove_overwrites_occupied_cell :
    boardGet gsMid.board 7 7 = some tileOld
    ∧ (submitMove oracleYes gsMid "sA" ptsOverwrite).2 = none
    ∧ boardGet (submitMove oracleYes gsMid "sA" ptsOverwrite).1.board 7 7 = some tileNew
    ∧ tileNew ≠ tileOld := by decide

/-- C2 amended: no operation ever CLEARS an occupied cell — a cell
occupied before `submitMove` (any outcome), `passTurn` or `exchangeTiles`
is still occupied afterwards (the commit loop only writes tiles, never
`null`) — but a committed `submitMove` may replace the occupying tile,
as the counterexample shows. -/
theorem occupied_cells_stay_occupied (oracle : String → Bool)
    (shuffle : List Tile → List Tile) (gs : GameState) (sock : String)
    (pts : List PlacedTile) (idxs : List Nat) (r c : Nat)
    (h : (boardGet gs.board r c).isSome = true) :
    (boardGet (submitMove oracle gs sock pts).1.board r c).isSome = true
    ∧ (boardGet (passTurn gs sock).1.board r c).isSome = true
    ∧ (boardGet (exchangeTiles shuffle gs sock idxs).1.board r c).isSome = true := by
  refine ⟨?_, ?_, ?_⟩
  · unfold submitMove
    repeat' (first | split | (dsimp only; split))
    all_goals first
      | exact h
      | exact boardGet_placeTiles_isSome gs.board pts h
  · unfold passTurn
    dsimp only
    repeat' split
    all_goals exact h
  · unfold exchangeTiles
    repeat' split
    all_goals (try dsimp only)
    all_goals exact h

/-- C2 amended, witnessed at the overwrite scenario. -/
theorem occupied_cells_stay_occupied_witness :
    (boardGet gsMid.board 7 7).isSome = true
    ∧ ((boardGet (submitMove oracleYes gsMid "sA" ptsOverwrite).1.board 7 7).isSome = true
      ∧ (boardGet (passTurn gsMid "sA").1.board 7 7).isSome = true
      ∧ (boardGet (exchangeTiles (fun l => l) gsMid "sA" [0]).1.board 7 7).isSome
          = true) :=
  ⟨by decide, occupied_cells_stay_occupied oracleYes (fun l => l) gsMid "sA"
    ptsOverwrite [0] 7 7 (by decide)⟩

-- ## Claim C3 (contiguity validation)

/-- C3 counterexample: tiles placed at (7,0) and (7,3) with the board
occupied at (7,1) but EMPTY at (7,2) are accepted by
`isValidWordPlacement` — the gap loop only inspects the first cell after
each placed tile (`expectedCol = previous.col + 1`), never the rest of
the gap, refuting "if any such intervening cell is empty it rejects". -/
theorem checkPlacement_accepts_gap :
    isValidWordPlacement bGap ptsGap false = vOk
    ∧ ptsGap.map (fun p => (p.row, p.col)) = [(7, 0), (7, 3)]
    ∧ (boardGet bGap 7 1).isSome = true
    ∧ boardGet bGap 7 2 = none
    ∧ isNewlyPlaced ptsGap (7, 2) = false := by decide

-- ## Claim C5 (error atomicity)

/-- C5: every rejected `submitMove`, `passTurn` or `exchangeTiles`
(whatever the reason — wrong turn, empty placement, invalid placement, no
word formed, dictionary refusal, insufficient bag) leaves the stored
session state — board, racks, bag, scores, pass counter, turn pointer —
exactly as it was: in the source every `socket.emit('error'); return`
precedes all mutation. -/
theorem rejected_operations_leave_state_unchanged (oracle : String → Bool)
    (shuffle : List Tile → List Tile) (gs : GameState) (sock : String)
    (pts : List PlacedTile) (idxs : List Nat) :
    ((submitMove oracle gs sock pts).2.isSome = true
        → (submitMove oracle gs sock pts).1 = gs)
    ∧ ((passTurn gs sock).2.isSome = true → (passTurn gs sock).1 = gs)
    ∧ ((exchangeTiles shuffle gs sock idxs).2.isSome = true
        → (exchangeTiles shuffle gs sock idxs).1 = gs) := by
  refine ⟨?_, ?_, ?_⟩
  · unfold submitMove
    repeat' (first | split | (dsimp only; split))
    all_goals intro hh
    all_goals first | rfl | simp at hh
  · unfold passTurn
    dsimp only
    repeat' split
    all_goals intro hh
    all_goals first | rfl | simp at hh
  · unfold exchangeTiles
    repeat' split
    all_goals intro hh
    all_goals first | rfl | simp at hh

/-- C5 witnessed at the §8 scenario: exchanging 5 tiles while the bag
holds 3 is rejected and the stored state is untouched. -/
theorem exchange_rejection_witness :
    (exchangeTiles (fun l => l) gsBag3 "sA" [0, 1, 2, 3, 4]).2.isSome = true
    ∧ (exchangeTiles (fun l => l) gsBag3 "sA" [0, 1, 2, 3, 4]).1 = gsBag3 :=
  ⟨by decide, (rejected_operations_leave_state_unchanged oracleYes (fun l => l)
    gsBag3 "sA" [] [0, 1, 2, 3, 4]).2.2 (by decide)⟩

-- ## Claim C6 (exchange frame)

/-- C6: a successful `exchangeTiles` (enough tiles in the bag, caller on
turn) emits no error and touches only the acting player's rack, the bag
and the turn pointer (advanced by one modulo the player count): board,
scores, word history, ended flag, player list, first-word flag and — in
particular — the pass counter are unchanged, and every other player's
rack is untouched.  Holds for EVERY shuffle function. -/
theorem exchange_frame (shuffle : List Tile → List Tile) (gs : GameState)
    (sock : String) (idxs : List Nat) (p : Player)
    (hp : gs.players.get? gs.currentTurn = some p)
    (hsock : p.socketId = sock)
    (hbag : idxs.length ≤ gs.tileBag.length) :
    (exchangeTiles shuffle gs sock idxs).2 = none
    ∧ (exchangeTiles shuffle gs sock idxs).1.board = gs.board
    ∧ (exchangeTiles shuffle gs sock idxs).1.scores = gs.scores
    ∧ (exchangeTiles shuffle gs sock idxs).1.wordsPlayed = gs.wordsPlayed
    ∧ (exchangeTiles shuffle gs sock idxs).1.gameEnded = gs.gameEnded
    ∧ (exchangeTiles shuffle gs sock idxs).1.passCount = gs.passCount
    ∧ (exchangeTiles shuffle gs sock idxs).1.players = gs.players
    ∧ (exchangeTiles shuffle gs sock idxs).1.firstWordPlayed = gs.firstWordPlayed
    ∧ (exchangeTiles shuffle gs sock idxs).1.currentTurn
        = (gs.currentTurn + 1) % gs.players.length
    ∧ ∀ pid, pid ≠ p.id →
        lookupA pid (exchangeTiles shuffle gs sock idxs).1.playerRacks
          = lookupA pid gs.playerRacks := by
  unfold exchangeTiles
  rw [hp]
  dsimp only
  rw [if_neg (by simp [hsock]), if_neg (by omega)]
  refine ⟨rfl, rfl, rfl, rfl, rfl, rfl, rfl, rfl, rfl, ?_⟩
  intro pid hpid
  exact lookupA_setA_ne p.id pid _ _ hpid

/-- C6 witnessed: alice exchanges one tile in the fresh session. -/
theorem exchange_frame_witness :
    (gsStart.players.get? gsStart.currentTurn = some playerA
      ∧ playerA.socketId = "sA"
      ∧ ([0] : List Nat).length ≤ gsStart.tileBag.length)
    ∧ ((exchangeTiles (fun l => l) gsStart "sA" [0]).2 = none
      ∧ (exchangeTiles (fun l => l) gsStart "sA" [0]).1.board = gsStart.board
      ∧ (exchangeTiles (fun l => l) gsStart "sA" [0]).1.passCount = gsStart.passCount
      ∧ lookupA "idB" (exchangeTiles (fun l => l) gsStart "sA" [0]).1.playerRacks
          = lookupA "idB" gsStart.playerRacks) := by
  refine ⟨by decide, ?_⟩
  have h := exchange_frame (fun l => l) gsStart "sA" [0] playerA (by decide)
    (by decide) (by decide)
  exact ⟨h.1, h.2.1, h.2.2.2.2.2.1, h.2.2.2.2.2.2.2.2.2 "idB" (by decide)⟩

-- ## Claim C4 (pass-out end condition)

/-- C4 counterexample: in a 3-player session where carol has disconnected
(2 connected players), the pass that brings the counter to 4 = 2×2 does
NOT end the game — `checkGameEnd` compares against twice the LENGTH of
the player list (6 here), not twice the connected count. -/
theorem passOut_ignores_connected_count :
    connectedCount gsPass.players = 2
    ∧ gsPass.players.length = 3
    ∧ (passTurn gsPass "sA").2 = none
    ∧ (passTurn gsPass "sA").1.passCount = 2 * connectedCount gsPass.players
    ∧ (passTurn gsPass "sA").1.gameEnded = false := by decide

/-- C4 amended: the pass-out threshold is 2 × (length of the session's
player list, connected or not): a pass by the player on turn that brings
the counter to at least that bound ends the game — in particular 6
consecutive passes end a 3-player game — and the counter is reset by
every committed move but untouched by exchanges. -/
theorem passOut_threshold_playerlist_length (gs : GameState) (sock : String)
    (p : Player) (hp : gs.players.get? gs.currentTurn = some p)
    (hsock : p.socketId = sock)
    (hthr : gs.players.length * 2 ≤ gs.passCount + 1) :
    (passTurn gs sock).1.passCount = gs.passCount + 1
    ∧ (passTurn gs sock).1.gameEnded = true
    ∧ (∀ oracle pts, (submitMove oracle gs sock pts).2 = none
        → (submitMove oracle gs sock pts).1.passCount = 0)
    ∧ (∀ shuffle idxs,
        (exchangeTiles shuffle gs sock idxs).1.passCount = gs.passCount) := by
  have hend : checkGameEnd { gs with passCount := gs.passCount + 1 } = true := by
    unfold checkGameEnd
    simp
    omega
  refine ⟨?_, ?_, ?_, ?_⟩
  · unfold passTurn
    rw [hp]
    dsimp only
    rw [if_neg (by simp [hsock]), if_pos hend]
  · unfold passTurn
    rw [hp]
    dsimp only
    rw [if_neg (by simp [hsock]), if_pos hend]
  · intro oracle pts
    unfold submitMove
    repeat' (first | split | (dsimp only; split))
    all_goals intro hok
    all_goals first
      | rfl
      | (dsimp only at hok
         rename_i hval
         rw [Bool.not_eq_true'] at hval
         have h2 := isValidWordPlacement_invalid_reason gs.board pts
           (!gs.firstWordPlayed) hval
         rw [hok] at h2
         simp at h2)
      | simp at hok
  · intro shuffle idxs
    unfold exchangeTiles
    repeat' split
    all_goals rfl

/-- C4 amended, witnessed: with 3 tracked players and 5 accumulated
passes, the 6th pass ends the game. -/
theorem passOut_threshold_witness :
    (gsPass5.players.get? gsPass5.currentTurn = some playerA
      ∧ playerA.socketId = "sA"
      ∧ gsPass5.players.length * 2 ≤ gsPass5.passCount + 1)
    ∧ ((passTurn gsPass5 "sA").1.passCount = 6
      ∧ (passTurn gsPass5 "sA").1.gameEnded = true) := by
  refine ⟨by decide, ?_⟩
  have h := passOut_threshold_playerlist_length gsPass5 "sA" playerA (by decide)
    (by decide) (by decide)
  exact ⟨h.1, h.2.1⟩

-- ## Claim C7 (scoring)

/-- C7: the scoring loop of `calculateScore` computes, for every word,
the sum of its tiles' point values with double/triple-letter multipliers
applied only at newly placed positions, times the product of the
double/triple-word multipliers triggered only under newly placed tiles;
the move score is the sum over all words plus a flat 50 exactly when the
move placed 7 tiles. -/
theorem calculateScore_eq_specMoveScore (words : List WordFormed)
    (placedTiles : List PlacedTile) :
    calculateScore words placedTiles = specMoveScore words placedTiles := by
  unfold calculateScore specMoveScore
  rw [foldl_add_scores]
  by_cases h7 : placedTiles.length = 7 <;> simp [h7]

-- ## Claim C3, amended part

/-- C3 amended: what the accepted placements actually satisfy — along the
placement axis of the sorted tiles, each ADJACENT pair of placed tiles is
either within distance one or has the single cell immediately following
the earlier tile occupied on the board; cells deeper inside a gap are
never inspected (see the counterexample `checkPlacement_accepts_gap`),
and a rejection with the tiles-not-consecutive reason occurs exactly when
this first-gap-cell check fails. -/
theorem checkPlacement_gap_first_cell_checked (b : Board)
    (pts : List PlacedTile) (isFirstWord : Bool)
    (hv : (isValidWordPlacement b pts isFirstWord).valid = true) :
    (allSameRow (sortPT pts) = true →
      (sortPT pts).Chain' (fun x y => y.col ≤ x.col + 1
        ∨ (boardGet b y.row (x.col + 1)).isSome = true))
    ∧ (allSameRow (sortPT pts) = false →
      (sortPT pts).Chain' (fun x y => y.row ≤ x.row + 1
        ∨ (boardGet b (x.row + 1) y.col).isSome = true)) := by
  unfold isValidWordPlacement at hv
  cases hsort : sortPT pts with
  | nil =>
    rw [hsort] at hv
    simp [vFail] at hv
  | cons h rest =>
    rw [hsort] at hv
    constructor
    · intro hH
      by_cases hC : consecOkH b (h :: rest)
      · exact consecOkH_chain b (h :: rest) hC
      · exfalso
        simp [hH, hC, vFail] at hv
    · intro hH
      by_cases hK : allSameCol (h :: rest)
      · by_cases hC : consecOkV b (h :: rest)
        · exact consecOkV_chain b (h :: rest) hC
        · exfalso
          simp [hH, hK, hC, vFail] at hv
      · exfalso
        simp [hH, hK, vFail] at hv

/-- C3 amended, witnessed at the accepted gap placement. -/
theorem checkPlacement_gap_chain_witness :
    (isValidWordPlacement bGap ptsGap false).valid = true
    ∧ ((allSameRow (sortPT ptsGap) = true →
        (sortPT ptsGap).Chain' (fun x y => y.col ≤ x.col + 1
          ∨ (boardGet bGap y.row (x.col + 1)).isSome = true))
      ∧ (allSameRow (sortPT ptsGap) = false →
        (sortPT ptsGap).Chain' (fun x y => y.row ≤ x.row + 1
          ∨ (boardGet bGap (x.row + 1) y.col).isSome = true))) :=
  ⟨by decide, checkPlacement_gap_first_cell_checked bGap ptsGap false (by decide)⟩

-- ## Claim C9 (rack privacy of getGameState)

/-- C9: the `gameState` reply contains exactly one rack entry — the
requesting player's own — and the reply is identical for any two session
states that agree on board, scores, turn, players, ended flag and word
history and on the REQUESTER's rack, whatever the other players' racks
hold: no other rack influences or appears in the reply. -/
theorem getGameState_rack_privacy (inRoom : Bool) (s1 s2 : GameState)
    (sock : String)
    (hb : s1.board = s2.board) (hs : s1.scores = s2.scores)
    (ht : s1.currentTurn = s2.currentTurn) (hp : s1.players = s2.players)
    (hg : s1.gameEnded = s2.gameEnded) (hw : s1.wordsPlayed = s2.wordsPlayed)
    (hr : ∀ p ∈ s1.players, p.socketId = sock →
      lookupA p.id s1.playerRacks = lookupA p.id s2.playerRacks) :
    getGameState s1 sock inRoom = getGameState s2 sock inRoom
    ∧ ∀ reply, getGameState s1 sock inRoom = some reply →
        ∃ p, s1.players.find? (fun q => decide (q.socketId = sock)) = some p
          ∧ reply.playerRacks = [(p.id, lookupA p.id s1.playerRacks)] := by
  unfold getGameState
  cases inRoom with
  | false => simp
  | true =>
    rw [← hp]
    cases hf : s1.players.find? (fun q => decide (q.socketId = sock)) with
    | none => simp
    | some p =>
      have hmem : p ∈ s1.players := List.mem_of_find?_eq_some hf
      have hps : p.socketId = sock := by simpa using List.find?_some hf
      have hre := hr p hmem hps
      constructor
      · simp [hb, hs, ht, hg, hw, hre]
      · intro reply hrep
        refine ⟨p, rfl, ?_⟩
        simp at hrep
        rw [← hrep]

/-- C9 witnessed: two sessions differing only in bob's rack produce the
same reply to alice's request. -/
theorem getGameState_rack_privacy_witness :
    (lookupA "idA" gsRacksA.playerRacks = lookupA "idA" gsRacksB.playerRacks
      ∧ lookupA "idB" gsRacksA.playerRacks ≠ lookupA "idB" gsRacksB.playerRacks)
    ∧ getGameState gsRacksA "sA" true = getGameState gsRacksB "sA" true := by
  refine ⟨by decide, ?_⟩
  exact (getGameState_rack_privacy true gsRacksA gsRacksB "sA" rfl rfl rfl rfl
    rfl rfl (by decide)).1

-- ## Claim C10 (submitMove never checks the rack)

/-- C10: `submitMove` never consults the acting player's rack — for ANY
rack contents `R` substituted into the session, a client-supplied
placement that passes the geometric checks, forms at least one word and
passes the dictionary oracle is committed to the board and scored.  No
hypothesis about `R` (or about the placed tiles' letters, values or ids
being drawn from it) appears. -/
theorem submitMove_ignores_rack (oracle : String → Bool) (gs : GameState)
    (sock : String) (pts : List PlacedTile) (p : Player)
    (R : List (String × List Tile))
    (hp : gs.players.get? gs.currentTurn = some p)
    (hsock : p.socketId = sock)
    (hne : pts.length ≠ 0)
    (hv : (isValidWordPlacement gs.board pts (!gs.firstWordPlayed)).valid = true)
    (hw : (getWordsFormed gs.board pts).length ≠ 0)
    (hdict : ∀ w ∈ getWordsFormed gs.board pts, oracle w.word = true) :
    (submitMove oracle { gs with playerRacks := R } sock pts).2 = none
    ∧ (submitMove oracle { gs with playerRacks := R } sock pts).1.board
        = placeTiles gs.board pts
    ∧ lookupA p.id (submitMove oracle { gs with playerRacks := R } sock pts).1.scores
        = some ((lookupA p.id gs.scores).getD 0
            + calculateScore (getWordsFormed gs.board pts) pts) := by
  unfold submitMove
  dsimp only
  rw [hp]
  dsimp only
  rw [if_neg (by simp [hsock]), if_neg hne, if_neg (by simp [hv]),
    if_neg hw, List.find?_eq_none.mpr (fun w hwm => by simp [hdict w hwm])]
  dsimp only
  split
  · exact ⟨rfl, rfl, by rw [lookupA_setA_self]⟩
  · exact ⟨rfl, rfl, by rw [lookupA_setA_self]⟩

/-- C10 witnessed: alice's opening move I,T is committed and scored
(4 points: I+T doubled by the centre DW) although her rack is EMPTY — the
placed tiles provably do not come from it. -/
theorem submitMove_ignores_rack_witness :
    (gsStart.players.get? gsStart.currentTurn = some playerA
      ∧ playerA.socketId = "sA"
      ∧ ptsIT.length ≠ 0
      ∧ (isValidWordPlacement gsStart.board ptsIT (!gsStart.firstWordPlayed)).valid
          = true
      ∧ (getWordsFormed gsStart.board ptsIT).length ≠ 0
      ∧ ∀ w ∈ getWordsFormed gsStart.board ptsIT, oracleYes w.word = true)
    ∧ ((submitMove oracleYes { gsStart with playerRacks := [] } "sA" ptsIT).2 = none
      ∧ lookupA "idA"
          (submitMove oracleYes { gsStart with playerRacks := [] } "sA"
            ptsIT).1.scores = some 4) := by
  refine ⟨by decide, ?_⟩
  have h := submitMove_ignores_rack oracleYes gsStart "sA" ptsIT playerA []
    (by decide) (by decide) (by decide) (by decide) (by decide) (by decide)
  exact ⟨h.1, h.2.2.trans (by decide)⟩

-- ## Claim C8 (single host and migration)

/-- C8 counterexample: a reachable trace breaking "exactly one connected
player with the host flag".  alice creates ROOM01, bob joins and is
approved, alice (host) disconnects — migration sets bob's flag WITHOUT
clearing alice's — and alice reconnects within the window: the room then
has TWO connected players flagged as host (and the host reference is
switched back to alice by the `joinRoom` reconnection path). -/
theorem host_reconnection_breaks_single_host :
    (lookupA "ROOM01" w5.rooms).map
        (fun r => (connectedFlaggedHosts r).length) = some 2
    ∧ (lookupA "ROOM01" w5.rooms).map
        (fun r => connectedCount r.players) = some 2
    ∧ ¬ (lookupA "ROOM01" w5.rooms).map
        (fun r => (connectedFlaggedHosts r).length) = some 1 := by decide

/-- C8 amended: a DISCONNECT preserves the single-host invariant — if
before it the room has exactly one connected flagged host and the host
reference points at that player, then afterwards either nobody is left
connected, or there is again exactly one connected flagged host, it is
the host reference, and when the departing player was the host the new
host is the first connected player in join order.  (The departing host's
own flag is NOT cleared, which is harmless while they stay disconnected
but breaks the invariant when they reconnect — see the counterexample.) -/
theorem disconnect_preserves_single_host (room : Room) (sid : String)
    (now : Nat) (room2 : Room) (pl : Player)
    (hnodup : (room.players.map (fun p => p.socketId)).Nodup)
    (hcount : (connectedFlaggedHosts room).length = 1)
    (hhost : ∃ h, room.players.get? room.hostIdx = some h
      ∧ h.connected = true ∧ h.isHost = true)
    (hupd : disconnectRoomUpdate room sid now = some (room2, pl)) :
    (room2.players.filter (fun p => p.connected)).length = 0
    ∨ ((connectedFlaggedHosts room2).length = 1
      ∧ (∃ h2, room2.players.get? room2.hostIdx = some h2
          ∧ h2.connected = true ∧ h2.isHost = true)
      ∧ ((room.players.get? room.hostIdx).map (fun p => p.socketId) = some sid
          → findIdxP (fun p => p.connected) room2.players
              = some room2.hostIdx)) := by
  obtain ⟨h, hhget, hhconn, hhflag⟩ := hhost
  unfold disconnectRoomUpdate at hupd
  cases e1 : findIdxP (fun p => decide (p.socketId = sid)) room.players with
  | none =>
    rw [e1] at hupd
    simp at hupd
  | some idx =>
    rw [e1] at hupd
    dsimp only at hupd
    cases e2 : room.players.get? idx with
    | none =>
      rw [e2] at hupd
      simp at hupd
    | some player =>
      rw [e2] at hupd
      dsimp only at hupd
      rw [Option.some.injEq, Prod.mk.injEq] at hupd
      obtain ⟨hroom, hpl⟩ := hupd
      obtain ⟨x, hxget, hxp⟩ := findIdxP_some_get e1
      rw [e2] at hxget
      rw [Option.some.injEq] at hxget
      subst hxget
      have hpsid : player.socketId = sid := of_decide_eq_true hxp
      have hPfh : connectedFlaggedHosts room
          = room.players.filter (fun p => p.connected && p.isHost) := rfl
      rw [hPfh] at hcount
      by_cases hc0 : ((setNth room.players idx
          { player with connected := false, lastSeen := now }).filter
            (fun p => p.connected)).length = 0
      · left
        rw [if_pos hc0] at hroom
        rw [← hroom]
        exact hc0
      · rw [if_neg hc0] at hroom
        right
        by_cases hc1 : (room.players.get? room.hostIdx).map
            (fun p => p.socketId) = some sid
        · -- the host is the one disconnecting
          have hhsid : h.socketId = sid := by
            rw [hhget] at hc1
            simpa using hc1
          have hIdx : idx = room.hostIdx :=
            nodup_map_get?_inj (fun p => p.socketId) hnodup e2 hhget
              (by show player.socketId = h.socketId
                  rw [hpsid, hhsid])
          have hph : player = h := by
            rw [hIdx] at e2
            rw [hhget] at e2
            simpa using e2.symm
          rw [if_pos hc1] at hroom
          cases e3 : findIdxP (fun p => p.connected)
              (setNth room.players idx
                { player with connected := false, lastSeen := now }) with
          | none =>
            exact absurd (by simp [findIdxP_none_filter e3]) hc0
          | some nh =>
            rw [e3] at hroom
            dsimp only at hroom
            obtain ⟨y, hyget, hyconn⟩ := findIdxP_some_get e3
            rw [hyget] at hroom
            dsimp only at hroom
            -- counting: the old host leaves the connected-flagged set …
            have hstep1 := filter_length_setNth_tf
              (fun p => p.connected && p.isHost) room.players idx
              { player with connected := false, lastSeen := now } h
              (by rw [hIdx]; exact hhget)
              (by show (h.connected && h.isHost) = true
                  simp [hhconn, hhflag])
              (by simp)
            rw [hcount] at hstep1
            have hc2 : ((setNth room.players idx
                { player with connected := false, lastSeen := now }).filter
                  (fun p => p.connected && p.isHost)).length = 0 := by omega
            -- … so the promoted player was not connected-and-flagged …
            have hyflag : ((fun p => p.connected && p.isHost) y) = false := by
              by_cases hyf : ((fun p => p.connected && p.isHost) y) = true
              · have hpos := filter_pos_of_get?
                  (fun p => p.connected && p.isHost) _ hyget hyf
                omega
              · simpa using hyf
            -- … and setting its flag yields exactly one again.
            have hstep2 := filter_length_setNth_ft
              (fun p => p.connected && p.isHost)
              (setNth room.players idx
                { player with connected := false, lastSeen := now }) nh
              { y with isHost := true } y hyget hyflag
              (by show (y.connected && true) = true
                  simp [hyconn])
            rw [hc2] at hstep2
            have hnhlt : nh < (setNth room.players idx
                { player with connected := false, lastSeen := now }).length :=
              findIdxP_some_lt e3
            refine ⟨?_, ⟨{ y with isHost := true }, ?_, ?_, ?_⟩, ?_⟩
            · rw [← hroom]
              show ((setNth (setNth room.players idx
                  { player with connected := false, lastSeen := now }) nh
                  { y with isHost := true }).filter
                    (fun p => p.connected && p.isHost)).length = 1
              omega
            · rw [← hroom]
              exact get?_setNth_self _ nh _ hnhlt
            · simpa using hyconn
            · rfl
            · intro _
              rw [← hroom]
              exact findIdxP_setNth_self _ e3 (by simpa using hyconn)
        · -- a non-host is disconnecting
          have hhsid : ¬ h.socketId = sid := by
            rw [hhget] at hc1
            simpa using hc1
          have hIdxNe : idx ≠ room.hostIdx := by
            intro he
            rw [he, hhget] at e2
            rw [Option.some.injEq] at e2
            rw [e2] at hhsid
            exact hhsid hpsid
          rw [if_neg hc1] at hroom
          have hpflag : ((fun p => p.connected && p.isHost) player) = false := by
            by_cases hpf : ((fun p => p.connected && p.isHost) player) = true
            · have h2c := filter_two_of_get?
                (fun p => p.connected && p.isHost) room.players hIdxNe e2
                hhget hpf
                (by show (h.connected && h.isHost) = true
                    simp [hhconn, hhflag])
              omega
            · simpa using hpf
          have hstep1 := filter_length_setNth_ff
            (fun p => p.connected && p.isHost) room.players idx
            { player with connected := false, lastSeen := now } player e2
            hpflag (by simp)
          refine ⟨?_, ⟨h, ?_, hhconn, hhflag⟩, ?_⟩
          · rw [← hroom]
            show ((setNth room.players idx
                { player with connected := false, lastSeen := now }).filter
                  (fun p => p.connected && p.isHost)).length = 1
            rw [hstep1, hcount]
          · rw [← hroom]
            show (setNth room.players idx
                { player with connected := false, lastSeen := now }).get?
                  room.hostIdx = some h
            rw [get?_setNth_ne _ _ _ _ hIdxNe]
            exact hhget
          · intro hcc
            exact absurd hcc hc1

/-- C8 amended, witnessed: alice (host) disconnects from the 2-player
room `roomW`; bob becomes the unique connected flagged host, first in
join order. -/
theorem disconnect_preserves_single_host_witness :
    ((roomW.players.map (fun p => p.socketId)).Nodup
      ∧ (connectedFlaggedHosts roomW).length = 1
      ∧ disconnectRoomUpdate roomW "s1" 5 = some (roomW2, plW2))
    ∧ ((roomW2.players.filter (fun p => p.connected)).length = 0
      ∨ ((connectedFlaggedHosts roomW2).length = 1
        ∧ (∃ h2, roomW2.players.get? roomW2.hostIdx = some h2
            ∧ h2.connected = true ∧ h2.isHost = true)
        ∧ ((roomW.players.get? roomW.hostIdx).map (fun p => p.socketId)
              = some "s1"
            → findIdxP (fun p => p.connected) roomW2.players
                = some roomW2.hostIdx))) :=
  ⟨⟨by decide, by decide, by decide⟩,
   disconnect_preserves_single_host roomW "s1" 5 roomW2 plW2 (by decide)
     (by decide) ⟨hostW, by decide, rfl, rfl⟩ (by decide)⟩

end Scrabble
